import Mathlib

/-!
Verification of the FSM trace validator in `src/runtime/fsm-check.py`.

The validator takes an observed trace of symbolic state tags (extracted either
from a textual assembly artifact or from a binary sideband stream) and a
declared FSM policy, and reports a verdict plus a complete list of violation
messages.

Embedding conventions:
- A Python `dict` loaded from the policy JSON is modelled as an association
  list with unique keys; `dict.get` is first-match lookup, and the reverse
  ID table built by insertion (later assignment overwrites) is last-match
  lookup.
- Python `set(xs)` is used in the source only for membership tests, emptiness
  tests and `sorted(...)`; it is modelled by the underlying list (membership,
  `≠ []`) and by sorting the deduplicated list.
- Byte strings are lists of naturals below 256; `struct.iter_unpack("<I", b)`
  is a recursive grouping into base-256 little-endian 32-bit values.
- f-string interpolation of a non-negative `int` is decimal rendering
  (`natRepr`); interpolation of a `list[str]` is Python `repr` of the list,
  modelled for state names free of quote/escape characters (the only kind the
  tool manipulates).
- The single quote character inside message literals is written `\x27`.
-/

/-- The FSM policy object loaded from JSON (`load_policy` result as consumed by
`validate` and `extract_tags_from_sideband`).  Absent JSON keys are the
defaults used by `policy.get(...)`: `start` absent is `none`, the others
default to empty.  `ids` values are stored already parsed to naturals
(`_parse_state_id` accepts ints and numeric strings; all claims concern native
integer IDs). -/
structure Policy where
  start : Option String
  accept : List String
  transitions : List (String × List String)
  ids : List (String × Nat)
deriving Repr, DecidableEq

/-- `policy.get("transitions", {}).get(prev, [])`: dict lookup with default
empty successor list. -/
def lookupTransitions (transitions : List (String × List String)) (s : String) : List String :=
  match transitions.find? (fun p => p.1 == s) with
  | some p => p.2
  | none => []

/-- Python repr of a string of state-name characters: wrapped in single
quotes. -/
def pyStrRepr (s : String) : String := "\x27" ++ s ++ "\x27"

/-- Python repr of a list of strings: `['A', 'B']`, `[]`. -/
def pyListRepr (l : List String) : String :=
  "[" ++ String.intercalate ", " (l.map pyStrRepr) ++ "]"

/-- Insertion into a ≤-sorted list of strings (code-point lexicographic,
matching Python string comparison). -/
def insertSorted (a : String) : List String → List String
  | [] => [a]
  | b :: l => if a ≤ b then a :: b :: l else b :: insertSorted a l

/-- Sorting a list of strings ascending: models Python `sorted`. -/
def pySorted (l : List String) : List String := l.foldr insertSorted []

/-- `sorted(set(l))`: the distinct elements in ascending order. -/
def pySortedSet (l : List String) : List String := pySorted l.dedup

/-- Message for an empty trace (fsm-check.py line 71). -/
def emptyTraceMsg : String := "No TAG:<STATE> markers were found in asm output."

/-- Message for a bad start state (fsm-check.py line 74). -/
def startMsg (t0 start : String) : String :=
  "First tag \x27" ++ t0 ++ "\x27 does not match required start state \x27" ++ start ++ "\x27."

/-- Message for an illegal transition (fsm-check.py lines 79-81). -/
def transMsg (prev curr : String) (allowed : List String) : String :=
  "Illegal transition " ++ prev ++ " -> " ++ curr ++ ". Allowed next states: "
    ++ pyListRepr allowed ++ "."

/-- Message for a bad final state (fsm-check.py line 84). -/
def acceptMsg (lastTag : String) (sortedAccept : List String) : String :=
  "Final tag \x27" ++ lastTag ++ "\x27 is not in accept set " ++ pyListRepr sortedAccept ++ "."

/-- Embeds `validate(tags, policy)` from fsm-check.py lines 64-86.
`start and tags[0] != start` tests truthiness of `start`: the check runs only
when `start` is present and non-empty.  `accept` is a set; `if accept` is its
non-emptiness and `tags[-1] not in accept` is membership, both modelled on the
underlying list.  Returns `(len(errors) == 0, errors)`. -/
def validate (tags : List String) (policy : Policy) : Bool × List String :=
  match tags with
  | [] => (false, [emptyTraceMsg])
  | t0 :: rest =>
    let errors : List String :=
      match policy.start with
      | none => []
      | some s => if s ≠ "" ∧ t0 ≠ s then [startMsg t0 s] else []
    let errors := ((t0 :: rest).zip (t0 :: rest).tail).foldl
      (fun errs pc =>
        let allowed := lookupTransitions policy.transitions pc.1
        if pc.2 ∈ allowed then errs else errs ++ [transMsg pc.1 pc.2 allowed]) errors
    let lastTag := (t0 :: rest).getLast (List.cons_ne_nil t0 rest)
    let errors :=
      if policy.accept ≠ [] ∧ lastTag ∉ policy.accept
      then errors ++ [acceptMsg lastTag (pySortedSet policy.accept)]
      else errors
    (errors.length == 0, errors)

/-- The bad-start portion of `validate`'s error list, in isolation. -/
def startViolations (tags : List String) (policy : Policy) : List String :=
  match tags, policy.start with
  | t0 :: _, some s => if s ≠ "" ∧ t0 ≠ s then [startMsg t0 s] else []
  | _, _ => []

/-- The illegal-transition portion of `validate`'s error list: one message per
adjacent pair whose successor is not allowed, in trace order. -/
def transViolations (tags : List String) (policy : Policy) : List String :=
  (tags.zip tags.tail).filterMap (fun pc =>
    if pc.2 ∈ lookupTransitions policy.transitions pc.1 then none
    else some (transMsg pc.1 pc.2 (lookupTransitions policy.transitions pc.1)))

/-- The bad-final-state portion of `validate`'s error list, in isolation. -/
def acceptViolations (tags : List String) (policy : Policy) : List String :=
  match tags with
  | [] => []
  | t0 :: rest =>
    let lastTag := (t0 :: rest).getLast (List.cons_ne_nil t0 rest)
    if policy.accept ≠ [] ∧ lastTag ∉ policy.accept
    then [acceptMsg lastTag (pySortedSet policy.accept)]
    else []

/-- A character matched by the regex class `[A-Za-z0-9_]`. -/
def isIdentChar (c : Char) : Bool :=
  decide (('A' ≤ c ∧ c ≤ 'Z') ∨ ('a' ≤ c ∧ c ≤ 'z') ∨ ('0' ≤ c ∧ c ≤ '9')) || c == '_'

/-- Attempt to match the regex `TAG:([A-Za-z0-9_]+)` anchored at the head of
the character list, returning capture group 1 (the maximal identifier run). -/
def matchHere : List Char → Option String
  | 'T' :: 'A' :: 'G' :: ':' :: rest =>
    let ident := rest.takeWhile isIdentChar
    if ident.isEmpty then none else some (String.mk ident)
  | _ => none

/-- `re.search` of `TAG:([A-Za-z0-9_]+)`: try each start position left to
right, return group 1 of the leftmost full match. -/
def findTag : List Char → Option String
  | [] => none
  | c :: cs =>
    match matchHere (c :: cs) with
    | some t => some t
    | none => findTag cs

/-- A character at which Python `str.splitlines` breaks a line. -/
def isLineBreak (c : Char) : Bool :=
  c == '\n' || c == '\r' || c == '\x0b' || c == '\x0c' || c == '\x1c'
    || c == '\x1d' || c == '\x1e' || c == '\u0085' || c == '\u2028' || c == '\u2029'

/-- Worker for `splitlines`: `cur` holds the current line reversed.  `\r\n`
counts as a single break; a final segment is emitted only when non-empty
(Python drops nothing but adds no empty trailing line). -/
def splitlinesAux : List Char → List Char → List (List Char)
  | cur, [] => if cur.isEmpty then [] else [cur.reverse]
  | cur, '\r' :: '\n' :: cs => cur.reverse :: splitlinesAux [] cs
  | cur, c :: cs =>
    if isLineBreak c then cur.reverse :: splitlinesAux [] cs
    else splitlinesAux (c :: cur) cs

/-- Python `str.splitlines`. -/
def splitlines (s : String) : List String :=
  (splitlinesAux [] s.data).map String.mk

/-- Embeds `extract_tags(asm_text)` from fsm-check.py lines 28-35: for each
line in order, append group 1 of the first `TAG:([A-Za-z0-9_]+)` match, if
any. -/
def extract_tags (asm_text : String) : List String :=
  (splitlines asm_text).filterMap (fun line => findTag line.data)

/-- Decimal digit rendering worker (structural in the fuel so that it reduces
in the kernel).  Models decimal formatting of a non-negative `int` by a Python
f-string. -/
def natReprAux : Nat → Nat → List Char → List Char
  | 0, _, acc => acc
  | fuel + 1, n, acc =>
    if n < 10 then Nat.digitChar n :: acc
    else natReprAux fuel (n / 10) (Nat.digitChar (n % 10) :: acc)

/-- Decimal rendering of a natural number, as `f"{n}"` renders an `int`. -/
def natRepr (n : Nat) : String := String.mk (natReprAux (n + 1) n [])

/-- The synthesized tag `f"ID_{raw_id}"` for a numeric ID missing from the
reverse table (fsm-check.py line 60). -/
def placeholderTag (raw : Nat) : String := "ID_" ++ natRepr raw

/-- Lookup in the reverse table `id_to_state` built on fsm-check.py lines
53-56: iterating `ids` in order and overwriting means the last pair with the
wanted ID wins. -/
def id_to_state_get (ids : List (String × Nat)) (raw : Nat) : Option String :=
  (ids.reverse.find? (fun p => p.2 == raw)).map Prod.fst

/-- `id_to_state.get(raw_id, f"ID_{raw_id}")` (fsm-check.py line 60). -/
def resolveTag (ids : List (String × Nat)) (raw : Nat) : String :=
  (id_to_state_get ids raw).getD (placeholderTag raw)

/-- The value of one little-endian 32-bit record from its four bytes. -/
def le32 (b0 b1 b2 b3 : Nat) : Nat := b0 + 256 * b1 + 65536 * b2 + 16777216 * b3

/-- `struct.iter_unpack("<I", bytes)`: consecutive 4-byte groups decoded as
unsigned 32-bit little-endian integers, in stream order. -/
def decodeLE32 : List Nat → List Nat
  | b0 :: b1 :: b2 :: b3 :: rest => le32 b0 b1 b2 b3 :: decodeLE32 rest
  | _ => []

/-- Message of the `ValueError` raised on a misaligned sideband stream
(fsm-check.py lines 48-50). -/
def formatErrorMsg (n : Nat) : String :=
  "Sideband stream length (" ++ natRepr n ++ ") is not a multiple of 4 bytes."

/-- Embeds `extract_tags_from_sideband(sideband_bytes, policy)` from
fsm-check.py lines 46-61.  The raised `ValueError` is the `Except.error`
branch. -/
def extract_tags_from_sideband (sideband_bytes : List Nat) (policy : Policy) :
    Except String (List String) :=
  if sideband_bytes.length % 4 ≠ 0 then
    Except.error (formatErrorMsg sideband_bytes.length)
  else
    Except.ok ((decodeLE32 sideband_bytes).map (resolveTag policy.ids))

/-- The regex match attempt of `matchHere` at start position `i` of the line:
used to state leftmost-match semantics. -/
def markerAt (cs : List Char) (i : Nat) : Option String := matchHere (cs.drop i)

/-- Specification-side reading of `re.search`: the capture of the match at the
least start position at which the pattern matches. -/
def firstMarker (cs : List Char) : Option String :=
  ((List.range cs.length).filterMap (markerAt cs)).head?

/-- The happy-path policy used throughout §8 of the spec, with the ID table of
the binary round-trip example. -/
def happyPolicy : Policy :=
  { start := some "INIT"
    accept := ["DONE"]
    transitions := [("INIT", ["RUN"]), ("RUN", ["DONE"])]
    ids := [("INIT", 0), ("RUN", 1), ("DONE", 2)] }

/-- The policy of the §8 examples exactly as written there (no `ids` table). -/
def specPolicy : Policy :=
  { start := some "INIT"
    accept := ["DONE"]
    transitions := [("INIT", ["RUN"]), ("RUN", ["DONE"])]
    ids := [] }

/-- A policy whose `start` field is present but holds the empty string. -/
def emptyStartPolicy : Policy := { specPolicy with start := some "" }

/-- The error-accumulating fold of `validate` appends, after the initial
accumulator, one message per offending adjacent pair, in order. -/
theorem errors_foldl_eq (tr : List (String × List String)) (l : List (String × String)) :
    ∀ acc : List String,
      l.foldl (fun errs pc =>
          if pc.2 ∈ lookupTransitions tr pc.1 then errs
          else errs ++ [transMsg pc.1 pc.2 (lookupTransitions tr pc.1)]) acc
        = acc ++ l.filterMap (fun pc =>
            if pc.2 ∈ lookupTransitions tr pc.1 then none
            else some (transMsg pc.1 pc.2 (lookupTransitions tr pc.1))) := by
  induction l with
  | nil => intro acc; simp
  | cons pc l ih =>
    intro acc
    by_cases h : pc.2 ∈ lookupTransitions tr pc.1
    · simp only [List.foldl_cons, if_pos h, List.filterMap_cons, h, ite_true]
      exact ih acc
    · simp only [List.foldl_cons, if_neg h, List.filterMap_cons, h, ite_false]
      rw [ih]
      simp [List.append_assoc]

/-- On a non-empty trace the error list of `validate` is the bad-start part,
then one illegal-transition message per offending adjacent pair in order, then
the bad-final-state part. -/
theorem validate_snd (t0 : String) (rest : List String) (policy : Policy) :
    (validate (t0 :: rest) policy).2 =
      startViolations (t0 :: rest) policy ++ transViolations (t0 :: rest) policy
        ++ acceptViolations (t0 :: rest) policy := by
  simp only [validate, startViolations, transViolations, acceptViolations, List.tail_cons]
  rw [errors_foldl_eq]
  by_cases h : policy.accept ≠ [] ∧ (t0 :: rest).getLast (List.cons_ne_nil t0 rest) ∉ policy.accept
  · simp only [if_pos h]
    simp only [List.append_assoc, List.append_cancel_right_eq, List.append_left_inj]
    cases policy.start <;> rfl
  · simp only [if_neg h]
    simp only [List.append_nil, List.append_left_inj]
    cases policy.start <;> rfl

/-- The verdict returned by `validate` is the emptiness test of the very error
list it returns. -/
theorem validate_fst (tags : List String) (policy : Policy) :
    (validate tags policy).1 = ((validate tags policy).2.length == 0) := by
  cases tags <;> rfl

/-- A bad-start message never coincides with an illegal-transition message
(their first characters differ). -/
theorem startMsg_ne_transMsg (a b p c : String) (al : List String) :
    startMsg a b ≠ transMsg p c al := by
  intro h
  have h2 := congrArg (fun s : String => s.data.head?) h
  simp [startMsg, transMsg, String.data_append] at h2

/-- A bad-final-state message never coincides with an illegal-transition
message (their first characters differ). -/
theorem acceptMsg_ne_transMsg (a p c : String) (al bl : List String) :
    acceptMsg a al ≠ transMsg p c bl := by
  intro h
  have h2 := congrArg (fun s : String => s.data.head?) h
  simp [acceptMsg, transMsg, String.data_append] at h2

/-- A bad-start message never coincides with a bad-final-state message (they
differ at their third character). -/
theorem startMsg_ne_acceptMsg (a b c : String) (al : List String) :
    startMsg a b ≠ acceptMsg c al := by
  intro h
  have h2 := congrArg (fun s : String => s.data.get? 2) h
  simp [startMsg, acceptMsg, String.data_append] at h2

/-- Decoder for `natReprAux` output: reads decimal digit characters back into
a natural number.  Only used to prove injectivity of the rendering. -/
def decodeDecimal (l : List Char) : Nat :=
  l.foldl (fun acc c => acc * 10 + (c.toNat - 48)) 0

/-- The accumulator of `natReprAux` is a suffix of the output. -/
theorem natReprAux_append (fuel : Nat) :
    ∀ (n : Nat) (acc : List Char),
      natReprAux fuel n acc = natReprAux fuel n [] ++ acc := by
  induction fuel with
  | zero => intro n acc; simp [natReprAux]
  | succ f ih =>
    intro n acc
    by_cases h : n < 10
    · simp [natReprAux, h]
    · simp only [natReprAux, if_neg h]
      rw [ih (n / 10) (Nat.digitChar (n % 10) :: acc), ih (n / 10) [Nat.digitChar (n % 10)]]
      simp

/-- Reading the rendered digits back recovers the number, for sufficient
fuel. -/
theorem decode_natReprAux (n : Nat) : ∀ fuel : Nat, n < fuel →
    decodeDecimal (natReprAux fuel n []) = n := by
  induction n using Nat.strong_induction_on with
  | _ n ih =>
    intro fuel hf
    match fuel, hf with
    | f + 1, hf =>
      by_cases h : n < 10
      · have hd : ∀ m : Nat, m < 10 → (Nat.digitChar m).toNat - 48 = m := by decide
        simp [natReprAux, h, decodeDecimal, hd n h]
      · have h10 : n / 10 < n := Nat.div_lt_self (by omega) (by omega)
        have hr : n / 10 < f := by omega
        simp only [natReprAux, if_neg h]
        rw [natReprAux_append f (n / 10) [Nat.digitChar (n % 10)]]
        have hsplit : decodeDecimal (natReprAux f (n / 10) [] ++ [Nat.digitChar (n % 10)])
            = decodeDecimal (natReprAux f (n / 10) []) * 10 + ((Nat.digitChar (n % 10)).toNat - 48) := by
          simp [decodeDecimal, List.foldl_append]
        have hd : ∀ m : Nat, m < 10 → (Nat.digitChar m).toNat - 48 = m := by decide
        rw [hsplit, ih (n / 10) h10 f hr, hd (n % 10) (by omega)]
        omega

/-- Decimal rendering is injective. -/
theorem natRepr_injective (a b : Nat) (h : natRepr a = natRepr b) : a = b := by
  have hdata : natReprAux (a + 1) a [] = natReprAux (b + 1) b [] := congrArg String.data h
  have ha := decode_natReprAux a (a + 1) (by omega)
  have hb := decode_natReprAux b (b + 1) (by omega)
  rw [← ha, ← hb, hdata]

/-- Two distinct unknown IDs never produce the same placeholder tag. -/
theorem placeholderTag_injective (a b : Nat) (h : placeholderTag a = placeholderTag b) :
    a = b := by
  apply natRepr_injective
  have hdata := congrArg String.data h
  simp only [placeholderTag, String.data_append] at hdata
  exact String.ext (List.append_cancel_left hdata)

/-- `decodeLE32` produces one value per full 4-byte group. -/
theorem decodeLE32_length : ∀ bytes : List Nat, (decodeLE32 bytes).length = bytes.length / 4
  | [] => by simp [decodeLE32]
  | [_] => by simp [decodeLE32]
  | [_, _] => by simp [decodeLE32]
  | [_, _, _] => by simp [decodeLE32]
  | _ :: _ :: _ :: _ :: rest => by
    simp only [decodeLE32, List.length_cons]
    rw [decodeLE32_length rest]
    omega

/-- Each value produced by `decodeLE32` is the little-endian 32-bit reading of
its own 4-byte group. -/
theorem decodeLE32_getElem : ∀ (bytes : List Nat) (i : Nat)
    (h : i < (decodeLE32 bytes).length),
    (decodeLE32 bytes)[i] =
      le32 (bytes.getD (4 * i) 0) (bytes.getD (4 * i + 1) 0)
           (bytes.getD (4 * i + 2) 0) (bytes.getD (4 * i + 3) 0)
  | b0 :: b1 :: b2 :: b3 :: rest, 0, _ => by
    simp [decodeLE32, List.getD]
  | b0 :: b1 :: b2 :: b3 :: rest, j + 1, h => by
    have hj : j < (decodeLE32 rest).length := by
      simpa [decodeLE32] using h
    have hstep := decodeLE32_getElem rest j hj
    simp only [decodeLE32, List.getElem_cons_succ]
    rw [hstep]
    rfl

/-- Shifting the match position by one steps to the tail of the line. -/
theorem markerAt_succ (c : Char) (cs : List Char) (i : Nat) :
    markerAt (c :: cs) (i + 1) = markerAt cs i := rfl

/-- The scanning search `findTag` returns the capture of the leftmost match:
the regex `search` semantics. -/
theorem findTag_eq_firstMarker : ∀ cs : List Char, findTag cs = firstMarker cs := by
  intro cs
  induction cs with
  | nil => rfl
  | cons c cs ih =>
    cases hm : matchHere (c :: cs) with
    | some t =>
      simp only [findTag, hm]
      unfold firstMarker
      rw [List.length_cons, List.range_succ_eq_map, List.filterMap_cons]
      have h0 : markerAt (c :: cs) 0 = some t := hm
      rw [h0]
      simp
    | none =>
      simp only [findTag, hm]
      unfold firstMarker
      rw [List.length_cons, List.range_succ_eq_map, List.filterMap_cons]
      have h0 : markerAt (c :: cs) 0 = none := hm
      rw [h0, List.filterMap_map]
      rw [show ((markerAt (c :: cs)) ∘ Nat.succ) = markerAt cs from funext fun i => markerAt_succ c cs i]
      exact ih

/-- A message that is no illegal-transition message is absent from the
illegal-transition part. -/
theorem count_transViolations_eq_zero (tags : List String) (policy : Policy) (m : String)
    (hm : ∀ p c al, m ≠ transMsg p c al) :
    (transViolations tags policy).count m = 0 := by
  rw [List.count_eq_zero]
  intro hmem
  unfold transViolations at hmem
  obtain ⟨pc, _, hf⟩ := List.mem_filterMap.mp hmem
  by_cases hin : pc.2 ∈ lookupTransitions policy.transitions pc.1
  · simp [hin] at hf
  · rw [if_neg hin] at hf
    exact hm pc.1 pc.2 _ (Option.some.inj hf).symm

/-- A message that is no bad-final-state message is absent from the
bad-final-state part. -/
theorem count_acceptViolations_eq_zero (tags : List String) (policy : Policy) (m : String)
    (hm : ∀ a al, m ≠ acceptMsg a al) :
    (acceptViolations tags policy).count m = 0 := by
  cases tags with
  | nil => rfl
  | cons t0 rest =>
    simp only [acceptViolations]
    split
    · rw [List.count_eq_zero]
      intro hmem
      rw [List.mem_singleton] at hmem
      exact hm _ _ hmem
    · rfl

/-- A message that is no bad-start message is absent from the bad-start
part. -/
theorem count_startViolations_eq_zero (tags : List String) (policy : Policy) (m : String)
    (hm : ∀ a b, m ≠ startMsg a b) :
    (startViolations tags policy).count m = 0 := by
  cases tags with
  | nil => cases policy.start <;> rfl
  | cons t0 rest =>
    cases hs : policy.start with
    | none => simp [startViolations, hs]
    | some s =>
      simp only [startViolations, hs]
      split
      · rw [List.count_eq_zero]
        intro hmem
        rw [List.mem_singleton] at hmem
        exact hm _ _ hmem
      · rfl

/-- C1 counterexample: on the §8 policy and the trace `["RUN", "INIT"]`,
`validate` returns three violations, not two, and the illegal-transition
message reports the allowed set `["DONE"]`, never the empty list claimed. -/
theorem validate_run_init_not_two_violations :
    (validate ["RUN", "INIT"] specPolicy).2.length = 3
    ∧ transMsg "RUN" "INIT" [] ∉ (validate ["RUN", "INIT"] specPolicy).2 := by
  constructor
  · decide
  · decide

/-- C1 (amended): for the policy `{start: "INIT", accept: ["DONE"],
transitions: {INIT: [RUN], RUN: [DONE]}}`, validating `["RUN", "INIT"]` fails
with exactly three violations: bad start (observed `RUN` vs required `INIT`),
illegal transition `RUN -> INIT` with reported allowed set `["DONE"]`, and bad
final state (`INIT` not in the accept set `["DONE"]`). -/
theorem validate_run_init_three_violations :
    validate ["RUN", "INIT"] specPolicy =
      (false, [startMsg "RUN" "INIT",
               transMsg "RUN" "INIT" ["DONE"],
               acceptMsg "INIT" ["DONE"]]) := by
  decide

/-- C2: on a non-empty trace `validate` runs every check without
short-circuiting: its error list is the bad-start part followed by one
illegal-transition message per offending adjacent pair in trace order followed
by the bad-final-state part; every adjacent pair whose successor is not in the
(possibly defaulted-empty) allowed set contributes its own violation; and the
verdict is `true` exactly when the violation list is empty. -/
theorem validate_exhaustive_checks (tags : List String) (policy : Policy) (h : tags ≠ []) :
    ((validate tags policy).2 =
        startViolations tags policy ++ transViolations tags policy
          ++ acceptViolations tags policy)
    ∧ (∀ prev curr, (prev, curr) ∈ tags.zip tags.tail →
        curr ∉ lookupTransitions policy.transitions prev →
        transMsg prev curr (lookupTransitions policy.transitions prev)
          ∈ (validate tags policy).2)
    ∧ ((validate tags policy).1 = true ↔ (validate tags policy).2 = []) := by
  match tags, h with
  | t0 :: rest, _ =>
    refine ⟨validate_snd t0 rest policy, ?_, ?_⟩
    · intro prev curr hmem hnotin
      rw [validate_snd]
      simp only [List.mem_append]
      refine Or.inl (Or.inr ?_)
      unfold transViolations
      refine List.mem_filterMap.mpr ⟨(prev, curr), hmem, ?_⟩
      rw [if_neg hnotin]
    · rw [validate_fst]
      simp [List.length_eq_zero]

/-- C2 witness at the concrete trace `["INIT", "DONE"]` and the §8 policy. -/
theorem validate_exhaustive_checks_witness :
    ((validate ["INIT", "DONE"] specPolicy).2 =
        startViolations ["INIT", "DONE"] specPolicy
          ++ transViolations ["INIT", "DONE"] specPolicy
          ++ acceptViolations ["INIT", "DONE"] specPolicy)
    ∧ (∀ prev curr,
        (prev, curr) ∈ (["INIT", "DONE"] : List String).zip (["INIT", "DONE"] : List String).tail →
        curr ∉ lookupTransitions specPolicy.transitions prev →
        transMsg prev curr (lookupTransitions specPolicy.transitions prev)
          ∈ (validate ["INIT", "DONE"] specPolicy).2)
    ∧ ((validate ["INIT", "DONE"] specPolicy).1 = true
        ↔ (validate ["INIT", "DONE"] specPolicy).2 = []) :=
  validate_exhaustive_checks ["INIT", "DONE"] specPolicy (by decide)

/-- C3: on the empty trace `validate` fails with exactly the single
no-tags-observed violation, for every policy alike — no start, transition or
accept check contributes anything. -/
theorem validate_empty_trace (policy : Policy) :
    validate [] policy = (false, [emptyTraceMsg])
    ∧ (validate [] policy).2.length = 1 :=
  ⟨rfl, rfl⟩

/-- C4: on a non-empty trace, when the policy's `start` is present (and
non-empty, its truthiness condition), `validate` records the bad-start
violation naming the observed first tag and the required start state exactly
once if the first tag differs from the start state, and never otherwise. -/
theorem validate_bad_start_iff (t0 : String) (rest : List String) (policy : Policy)
    (s : String) (hs : policy.start = some s) (hne : s ≠ "") :
    (validate (t0 :: rest) policy).2.count (startMsg t0 s)
      = if t0 ≠ s then 1 else 0 := by
  rw [validate_snd, List.count_append, List.count_append,
    count_transViolations_eq_zero (t0 :: rest) policy _ (startMsg_ne_transMsg t0 s),
    count_acceptViolations_eq_zero (t0 :: rest) policy _ (startMsg_ne_acceptMsg t0 s)]
  simp only [Nat.add_zero]
  simp only [startViolations, hs]
  by_cases ht : t0 = s
  · simp [ht]
  · rw [if_pos ⟨hne, ht⟩, if_pos ht]
    simp

/-- C4 witness at the trace `["RUN", "DONE"]` and the §8 policy. -/
theorem validate_bad_start_iff_witness :
    (validate ["RUN", "DONE"] specPolicy).2.count (startMsg "RUN" "INIT")
      = if ("RUN" : String) ≠ "INIT" then 1 else 0 :=
  validate_bad_start_iff "RUN" ["DONE"] specPolicy "INIT" rfl (by decide)

/-- C5: on a non-empty trace, `validate` records the bad-final-state violation
naming the observed last tag and the (sorted, deduplicated) accept set exactly
once if the accept set is non-empty and the last tag is not a member, and
never otherwise — in particular an empty accept set enforces nothing. -/
theorem validate_bad_final_iff (t0 : String) (rest : List String) (policy : Policy) :
    (validate (t0 :: rest) policy).2.count
        (acceptMsg ((t0 :: rest).getLast (List.cons_ne_nil t0 rest))
          (pySortedSet policy.accept))
      = if policy.accept ≠ []
            ∧ (t0 :: rest).getLast (List.cons_ne_nil t0 rest) ∉ policy.accept
        then 1 else 0 := by
  rw [validate_snd, List.count_append, List.count_append,
    count_transViolations_eq_zero (t0 :: rest) policy _
      (fun p c bl =>
        acceptMsg_ne_transMsg ((t0 :: rest).getLast (List.cons_ne_nil t0 rest)) p c
          (pySortedSet policy.accept) bl),
    count_startViolations_eq_zero (t0 :: rest) policy _
      (fun a b hab =>
        startMsg_ne_acceptMsg a b ((t0 :: rest).getLast (List.cons_ne_nil t0 rest))
          (pySortedSet policy.accept) hab.symm)]
  simp only [Nat.zero_add, Nat.add_zero]
  simp only [acceptViolations]
  split
  · simp
  · rfl

/-- C6: binary extraction fails on a misaligned byte stream with the format
error naming the observed byte length, and on an aligned stream succeeds with
exactly one tag per 4-byte group, each the resolution of that group read as an
unsigned 32-bit little-endian integer, in stream order. -/
theorem sideband_framing (bytes : List Nat) (policy : Policy)
    (_hb : ∀ b ∈ bytes, b < 256) :
    (bytes.length % 4 ≠ 0 →
      extract_tags_from_sideband bytes policy =
        Except.error ("Sideband stream length (" ++ natRepr bytes.length
          ++ ") is not a multiple of 4 bytes."))
    ∧ (bytes.length % 4 = 0 →
      ∃ tags, extract_tags_from_sideband bytes policy = Except.ok tags
        ∧ tags.length = bytes.length / 4
        ∧ ∀ (i : Nat) (hi : i < tags.length),
            tags[i] = resolveTag policy.ids
              (le32 (bytes.getD (4 * i) 0) (bytes.getD (4 * i + 1) 0)
                    (bytes.getD (4 * i + 2) 0) (bytes.getD (4 * i + 3) 0))) := by
  constructor
  · intro h
    simp [extract_tags_from_sideband, h, formatErrorMsg]
  · intro h
    refine ⟨(decodeLE32 bytes).map (resolveTag policy.ids), ?_, ?_, ?_⟩
    · simp [extract_tags_from_sideband, h]
    · simp [decodeLE32_length]
    · intro i hi
      have hi2 : i < (decodeLE32 bytes).length := by simpa using hi
      rw [List.getElem_map, decodeLE32_getElem bytes i hi2]

/-- C6 witness: a 3-byte stream is rejected with the length in the message;
an 8-byte stream decodes to two tags. -/
theorem sideband_framing_witness :
    extract_tags_from_sideband [0, 0, 0] specPolicy =
      Except.error ("Sideband stream length ("
        ++ natRepr (([0, 0, 0] : List Nat).length) ++ ") is not a multiple of 4 bytes.") :=
  (sideband_framing [0, 0, 0] specPolicy (by decide)).1 (by decide)

/-- C7: a decoded integer absent from the reverse ID table resolves to the
synthesized placeholder instead of failing, and the placeholder map is
injective: equal placeholders force equal raw values (and it is a function, so
equal raw values give equal placeholders). -/
theorem sideband_unknown_id_placeholder (policy : Policy) (raw : Nat)
    (h : raw ∉ policy.ids.map Prod.snd) :
    resolveTag policy.ids raw = placeholderTag raw
    ∧ ∀ a b : Nat, placeholderTag a = placeholderTag b → a = b := by
  constructor
  · unfold resolveTag id_to_state_get
    have hnone : policy.ids.reverse.find? (fun p => p.2 == raw) = none := by
      rw [List.find?_eq_none]
      intro p hp
      simp only [beq_iff_eq]
      intro he
      exact h (List.mem_map.mpr ⟨p, List.mem_reverse.mp hp, he⟩)
    rw [hnone]
    rfl
  · exact placeholderTag_injective

/-- C7 witness: ID 99 is unknown to the §8 ID table and resolves to its
placeholder. -/
theorem sideband_unknown_id_placeholder_witness :
    resolveTag happyPolicy.ids 99 = placeholderTag 99
    ∧ ∀ a b : Nat, placeholderTag a = placeholderTag b → a = b :=
  sideband_unknown_id_placeholder happyPolicy 99 (by decide)

/-- C8: on any input text the text extractor contributes per line at most the
one tag captured by the leftmost `TAG:[A-Za-z0-9_]+` match of that line —
lines without a match contribute nothing — and the trace keeps line order. -/
theorem extract_tags_first_marker_per_line (asm_text : String) :
    extract_tags asm_text =
      (splitlines asm_text).filterMap (fun line => firstMarker line.data) := by
  unfold extract_tags
  simp [findTag_eq_firstMarker]

/-- C9: the sideband bytes encoding `[0, 1, 2]` in unsigned 32-bit
little-endian decode through the §8 ID table back to
`["INIT", "RUN", "DONE"]`, the trace the text extractor reads off the happy
path, and validating it gives the identical (passing) outcome. -/
theorem binary_round_trip :
    extract_tags_from_sideband [0, 0, 0, 0, 1, 0, 0, 0, 2, 0, 0, 0] happyPolicy
      = Except.ok ["INIT", "RUN", "DONE"]
    ∧ extract_tags "TAG:INIT\nTAG:RUN\nTAG:DONE" = ["INIT", "RUN", "DONE"]
    ∧ validate ["INIT", "RUN", "DONE"] happyPolicy
        = validate (extract_tags "TAG:INIT\nTAG:RUN\nTAG:DONE") happyPolicy
    ∧ validate ["INIT", "RUN", "DONE"] happyPolicy = (true, []) := by
  refine ⟨rfl, by decide, by decide, by decide⟩

/-- C10: a `start` field holding the empty string is falsy, so `validate`
behaves exactly as with no `start` at all: no bad-start check is made on any
trace. -/
theorem empty_start_skips_check (tags : List String) (policy : Policy)
    (h : policy.start = some "") :
    validate tags policy = validate tags { policy with start := none }
    ∧ startViolations tags policy = [] := by
  constructor
  · cases tags with
    | nil => rfl
    | cons t0 rest => simp [validate, h]
  · cases tags with
    | nil => cases policy.start <;> rfl
    | cons t0 rest => simp [startViolations, h]

/-- C10 witness: a concrete policy with `start = ""` validates `["RUN"]`
exactly as the same policy without `start`. -/
theorem empty_start_skips_check_witness :
    validate ["RUN"] emptyStartPolicy = validate ["RUN"] { emptyStartPolicy with start := none }
    ∧ startViolations ["RUN"] emptyStartPolicy = [] :=
  empty_start_skips_check ["RUN"] emptyStartPolicy rfl
